import Mathlib

/-!
Shallow embedding of the assembly traversal and shape-analysis core of the
stp-extractor repository.

The embedded code:
* `src/core/assembly_extractor.py` — `AssemblyExtractor`
  (`extract_assembly_tree`, `extract_all_parts`, `_process_assembly_node`,
  `_analyze_shape_comprehensive`, `_extract_label_name`,
  `_extract_label_color`, `_extract_label_attributes`,
  `_calculate_node_depth`);
* `src/bom_extraction.py` — the FreeCAD-based BOM part-info construction
  (topology summary with its solids clamp).

Modelling conventions:
* Every CAD-kernel call that the Python code wraps in `try`/`except` is an
  oracle field of type `Except String α`: `.error msg` models the call
  raising an exception whose `str()` is `msg`.
* Python dicts that the code builds with fixed keys are Lean structures or
  inductives; the exact serialized key strings of the walker node dict are
  additionally recorded by `nodeKeys`, mirroring the dict literal in
  `_process_assembly_node`.
* Python floats (geometry values, color components) are modelled as exact
  rationals; `int()` truncation toward zero is `pyInt` and Python 3
  `round()` (bankers rounding, used only by the spec side) is `pyRound`.
* `hash(str(label))` in the placeholder-name fallback is process-salted in
  Python; it is modelled by the fixed surrogate `pyStrHash`.  No claim
  depends on the fallback value.
-/

/-- The seven topology kinds enumerated by `_analyze_shape_comprehensive`
(`TopAbs_VERTEX` … `TopAbs_COMPOUND`). -/
inductive TopoKind where
  | vertex | edge | face | solid | shell | wire | compound
deriving DecidableEq, Repr

/-- Oracle model of an OpenCASCADE `TopoDS_Shape` as used by
`_analyze_shape_comprehensive`.  Each field models one kernel capability the
Python code invokes on the shape; `.error msg` models that call raising. -/
structure Shape where
  /-- `shape.IsNull()` -/
  isNull : Bool
  /-- `hasattr(shape, 'ShapeType')` -/
  hasShapeType : Bool
  /-- `int(shape.ShapeType())` -/
  shapeTypeVal : Except String Int
  /-- the `TopExp_Explorer` count loop for one topology kind -/
  topoCount : TopoKind → Except String Nat
  /-- `BRepGProp.VolumeProperties`: `props.Mass()` and `props.CentreOfMass()` -/
  volumeProps : Except String (ℚ × (ℚ × ℚ × ℚ))
  /-- `BRepGProp.SurfaceProperties`: `surface_props.Mass()` -/
  surfaceArea : Except String ℚ
  /-- `BRepBndLib_Add` + `bbox.Get()`; `none` models `bbox.IsVoid()` -/
  bbox : Except String (Option (ℚ × ℚ × ℚ × ℚ × ℚ × ℚ))

/-- The `geometry_properties` sub-dict of the analysis record: `.empty` is the
initial `{}`, `.ok` the populated dict (volume, center of mass,
`has_inertia_data: True`, surface area), `.calculationFailed` the
`{"calculation_failed": msg}` replacement. -/
inductive GeomProps where
  | empty
  | ok (volume : ℚ) (center_of_mass : ℚ × ℚ × ℚ) (has_inertia_data : Bool)
      (surface_area : ℚ)
  | calculationFailed (msg : String)
deriving DecidableEq, Repr

/-- The `bounding_info` sub-dict: `.empty` is the initial `{}`, `.ok` the
populated dict, `.voidBoundingBox` the `{"void_bounding_box": True}` case,
`.calculationFailed` the `{"calculation_failed": msg}` case. -/
inductive BndInfo where
  | empty
  | ok (min_point max_point dimensions center : ℚ × ℚ × ℚ)
  | voidBoundingBox
  | calculationFailed (msg : String)
deriving DecidableEq, Repr

/-- The record returned by `_analyze_shape_comprehensive`: topology counts in
insertion order, the two metric sub-dicts, the shape-type tag, the validity
flag and the optional top-level `analysis_error` key. -/
structure Analysis where
  topology : List (String × Nat)
  geometry_properties : GeomProps
  bounding_info : BndInfo
  shape_type : String
  is_valid : Bool
  analysis_error : Option String
deriving DecidableEq, Repr

/-- The `topology_types` list of `_analyze_shape_comprehensive`, in source
order. -/
def topologyTypes : List (TopoKind × String) :=
  [(.vertex, "vertices"), (.edge, "edges"), (.face, "faces"),
   (.solid, "solids"), (.shell, "shells"), (.wire, "wires"),
   (.compound, "compounds")]

/-- The `for topo_type, key in topology_types` counting loop.  Counts already
recorded stay recorded; an exception while exploring one kind stops the loop
and is reported (it is caught only by the outer `try` of the analyzer). -/
def runTopology (s : Shape) : List (TopoKind × String) →
    List (String × Nat) × Option String
  | [] => ([], none)
  | (k, key) :: rest =>
    match s.topoCount k with
    | .error e => ([], some e)
    | .ok n =>
      let (acc, err) := runTopology s rest
      ((key, n) :: acc, err)

/-- The inner geometry `try` block: volume/center-of-mass integration then
surface-area integration; any exception replaces the whole sub-dict with
`{"calculation_failed": msg}`. -/
def computeGeometry (s : Shape) : GeomProps :=
  match s.volumeProps with
  | .error e => .calculationFailed e
  | .ok (v, com) =>
    match s.surfaceArea with
    | .error e => .calculationFailed e
    | .ok sa => .ok v com true sa

/-- The inner bounding-box `try` block: box computation, void check, then the
min/max/dimensions/center dict. -/
def computeBounding (s : Shape) : BndInfo :=
  match s.bbox with
  | .error e => .calculationFailed e
  | .ok none => .voidBoundingBox
  | .ok (some (x0, y0, z0, x1, y1, z1)) =>
    .ok (x0, y0, z0) (x1, y1, z1) (x1 - x0, y1 - y0, z1 - z0)
      ((x0 + x1) / 2, (y0 + y1) / 2, (z0 + z1) / 2)

/-- The record returned for a null shape. -/
def nullShapeAnalysis : Analysis :=
  { topology := [], geometry_properties := .empty, bounding_info := .empty,
    shape_type := "unknown", is_valid := false,
    analysis_error := some "Shape is null/invalid" }

/-- `_analyze_shape_comprehensive` (src/core/assembly_extractor.py:135-228).
The outer `try` covers the null check, the shape-type tag and the topology
loop; geometry and bounding have their own inner `try` blocks. -/
def analyzeShapeComprehensive (s : Shape) : Analysis :=
  if s.isNull then nullShapeAnalysis
  else
    let stRes : Except String String :=
      if s.hasShapeType then s.shapeTypeVal.map toString else .ok "unknown"
    match stRes with
    | .error e =>
      { topology := [], geometry_properties := .empty, bounding_info := .empty,
        shape_type := "unknown", is_valid := true, analysis_error := some e }
    | .ok st =>
      match runTopology s topologyTypes with
      | (topoAcc, some e) =>
        { topology := topoAcc, geometry_properties := .empty,
          bounding_info := .empty, shape_type := st, is_valid := true,
          analysis_error := some e }
      | (topo, none) =>
        { topology := topo, geometry_properties := computeGeometry s,
          bounding_info := computeBounding s, shape_type := st,
          is_valid := true, analysis_error := none }

/-- Python `int()` truncation toward zero on an exact rational. -/
def pyInt (q : ℚ) : Int := if q < 0 then -⌊-q⌋ else ⌊q⌋

/-- Python 3 `round()` to an integer: round half to even. -/
def pyRound (q : ℚ) : Int :=
  let f := ⌊q⌋
  if q - f < 1 / 2 then f
  else if 1 / 2 < q - f then f + 1
  else if f % 2 = 0 then f else f + 1

/-- Python `"{:02x}".format(n)` for a nonnegative argument: lowercase hex
digits, zero-padded on the left to width 2. -/
def py02x (n : Nat) : String :=
  let ds := Nat.toDigits 16 n
  String.mk (List.replicate (2 - ds.length) '0' ++ ds)

/-- Python `"{:02x}".format(i)` for any `Int` (a sign counts toward the
width; negative channels never occur for kernel colors in `[0,1]`). -/
def py02xInt (i : Int) : String :=
  if i < 0 then
    let ds := Nat.toDigits 16 i.natAbs
    "-" ++ String.mk (List.replicate (2 - (ds.length + 1)) '0' ++ ds)
  else py02x i.toNat

/-- The hex string `f"#{int(r*255):02x}{int(g*255):02x}{int(b*255):02x}"`
built by `_extract_label_color`. -/
def hexOfRgb (r g b : ℚ) : String :=
  "#" ++ py02xInt (pyInt (r * 255)) ++ py02xInt (pyInt (g * 255)) ++
    py02xInt (pyInt (b * 255))

/-- Fixed surrogate for Python's process-salted `hash` of a string, used only
inside the placeholder-name fallback `f"Part_{abs(hash(str(label))) % 10000}"`.
No claim depends on its values. -/
def pyStrHash (s : String) : Nat :=
  s.foldl (fun a c => (a * 131 + c.toNat) % 1152921504606846976) 5381

/-- The fallback name `f"Part_{abs(hash(str(label))) % 10000}"` synthesized by
`_extract_label_name`. -/
def fallbackName (labelId : String) : String :=
  "Part_" ++ toString (pyStrHash labelId % 10000)

/-- Oracle model of one `TDF_Label` (without its children) as consumed by
`AssemblyExtractor`.  Each `Except` field models one kernel call that can
raise; `str(label)` itself is modelled as the total `labelId`. -/
structure LabelData where
  /-- `str(label)` -/
  labelId : String
  /-- `label.FindAttribute(TDataStd_Name.GetID(), ...)` plus `Get()` and the
  string conversion: `none` = attribute absent, `some (.error e)` = the inner
  read raised, `some (.ok s)` = the resolved name string. -/
  nameAttr : Option (Except String String)
  /-- `shape_tool.IsSimpleShape(label)` -/
  isSimple : Except String Bool
  /-- `shape_tool.GetShape(label)` -/
  getShape : Except String Shape
  /-- `color_tool.GetColor(label, color)`: `none` = no color assigned,
  `some rgb` = the query succeeded and filled `color`. -/
  colorGet : Except String (Option (ℚ × ℚ × ℚ))
  /-- `label.FindAttribute(TDataStd_Comment.GetID(), ...)` plus
  `Get().ToExtString()` -/
  commentAttr : Except String (Option String)
  /-- the boolean returned by `shape_tool.GetComponents(label, child_labels)`
  (the filled sequence itself is the child list of the `Label` node) -/
  compStatus : Except String Bool

/-- A label together with the child labels that
`shape_tool.GetComponents` would enumerate for it. -/
inductive Label where
  | node (d : LabelData) (children : List Label)

/-- The data part of a label. -/
def Label.data : Label → LabelData
  | .node d _ => d

/-- The component children of a label. -/
def Label.comps : Label → List Label
  | .node _ cs => cs

/-- `_extract_label_name` (src/core/assembly_extractor.py:231-250): attribute
lookup with an empty-string check; every failure path falls back to the
synthesized placeholder name.  This helper never raises. -/
def extractLabelName (d : LabelData) : String :=
  match d.nameAttr with
  | none => fallbackName d.labelId
  | some (.error _) => fallbackName d.labelId
  | some (.ok s) => if s = "" then fallbackName d.labelId else s

/-- The `color_info` value produced by `_extract_label_color`: the initial
`{}`, the success dict, the `{"has_color": False}` dict, or the
`{"color_extraction_error": True}` dict. -/
inductive ColorInfo where
  | empty
  | colored (rgb : ℚ × ℚ × ℚ) (hex : String)
  | noColor
  | extractionError
deriving DecidableEq, Repr

/-- `_extract_label_color` (src/core/assembly_extractor.py:252-266).  Never
raises: kernel exceptions become `{"color_extraction_error": True}`. -/
def extractLabelColor (d : LabelData) : ColorInfo :=
  match d.colorGet with
  | .error _ => .extractionError
  | .ok none => .noColor
  | .ok (some (r, g, b)) => .colored (r, g, b) (hexOfRgb r g b)

/-- The `attributes` value produced by `_extract_label_attributes`: empty,
the `{"comment": c}` dict, or the `{"attribute_extraction_error": True}`
dict. -/
inductive Attrs where
  | empty
  | comment (c : String)
  | extractionError
deriving DecidableEq, Repr

/-- `_extract_label_attributes` (src/core/assembly_extractor.py:268-282).
Never raises. -/
def extractLabelAttributes (d : LabelData) : Attrs :=
  match d.commentAttr with
  | .error _ => .extractionError
  | .ok none => .empty
  | .ok (some c) => .comment c

/-- The `shape_info` value of a walker node: the initial `{}` or a full
analysis record. -/
inductive ShapeInfo where
  | empty
  | analysis (a : Analysis)
deriving DecidableEq, Repr

/-- The node dict built by `_process_assembly_node`, with the same fields in
the same insertion order (`type` is the serialized key of the
assembly-vs-part classification; `processing_error` is only present after a
caught per-node exception). -/
inductive NodeData where
  | mk (label_id : String) (level : Nat) (name : String) (type : String)
      (shape_info : ShapeInfo) (color_info : ColorInfo) (attributes : Attrs)
      (children : List NodeData) (processing_error : Option String)

/-- `node_data["label_id"]` -/
def NodeData.label_id : NodeData → String
  | .mk v _ _ _ _ _ _ _ _ => v

/-- `node_data["level"]` -/
def NodeData.level : NodeData → Nat
  | .mk _ v _ _ _ _ _ _ _ => v

/-- `node_data["name"]` -/
def NodeData.name : NodeData → String
  | .mk _ _ v _ _ _ _ _ _ => v

/-- `node_data["type"]` -/
def NodeData.type : NodeData → String
  | .mk _ _ _ v _ _ _ _ _ => v

/-- `node_data["shape_info"]` -/
def NodeData.shape_info : NodeData → ShapeInfo
  | .mk _ _ _ _ v _ _ _ _ => v

/-- `node_data["color_info"]` -/
def NodeData.color_info : NodeData → ColorInfo
  | .mk _ _ _ _ _ v _ _ _ => v

/-- `node_data["attributes"]` -/
def NodeData.attributes : NodeData → Attrs
  | .mk _ _ _ _ _ _ v _ _ => v

/-- `node_data["children"]` -/
def NodeData.children : NodeData → List NodeData
  | .mk _ _ _ _ _ _ _ v _ => v

/-- `node_data["processing_error"]` (absent = `none`) -/
def NodeData.processing_error : NodeData → Option String
  | .mk _ _ _ _ _ _ _ _ v => v

/-- The serialized key list of a walker node dict, in insertion order, as
built by `_process_assembly_node` (src/core/assembly_extractor.py:97-131). -/
def nodeKeys (nd : NodeData) : List String :=
  ["label_id", "level", "name", "type", "shape_info", "color_info",
   "attributes", "children"] ++
    (match nd.processing_error with
     | some _ => ["processing_error"]
     | none => [])

mutual

/-- `_process_assembly_node` (src/core/assembly_extractor.py:95-133).  The
dict literal (including the `IsSimpleShape` classification call, which is
outside the `try`) runs first: its exception propagates to the caller,
modelled by the `Except` result.  The `try` block then fills shape info,
color, attributes and children; its exception is caught and recorded as
`processing_error`, keeping whatever was already assigned. -/
def processAssemblyNode : Label → Nat → Except String NodeData
  | .node d cs, level =>
    match d.isSimple with
    | .error e => .error e
    | .ok simple =>
      let name := extractLabelName d
      let ntype := if !simple then "assembly" else "part"
      match d.getShape with
      | .error e =>
        .ok (.mk d.labelId level name ntype .empty .empty .empty [] (some e))
      | .ok shape =>
        let shapeInfo : ShapeInfo :=
          if shape.isNull then .empty
          else .analysis (analyzeShapeComprehensive shape)
        let colorInfo := extractLabelColor d
        let attrs := extractLabelAttributes d
        if simple then
          .ok (.mk d.labelId level name ntype shapeInfo colorInfo attrs []
            none)
        else
          match d.compStatus with
          | .error e =>
            .ok (.mk d.labelId level name ntype shapeInfo colorInfo attrs []
              (some e))
          | .ok false =>
            .ok (.mk d.labelId level name ntype shapeInfo colorInfo attrs []
              none)
          | .ok true =>
            let (children, err) := processChildren cs (level + 1)
            .ok (.mk d.labelId level name ntype shapeInfo colorInfo attrs
              children err)

/-- The `for j in range(...)` child loop of `_process_assembly_node`: each
child is processed recursively and appended; a child exception stops the
loop and is caught by this node's `try`, keeping the children appended so
far. -/
def processChildren : List Label → Nat → List NodeData × Option String
  | [], _ => ([], none)
  | c :: rest, lvl =>
    match processAssemblyNode c lvl with
    | .error e => ([], some e)
    | .ok nd =>
      let (more, err) := processChildren rest lvl
      (nd :: more, err)

end

mutual

/-- `_calculate_node_depth` (src/core/assembly_extractor.py:284-294).  For a
node without children it returns the node's own `level`; otherwise it folds
`max` over the children's depths starting from `0` (the node's own level is
not consulted in that branch). -/
def calculateNodeDepth : NodeData → Nat
  | .mk _ level _ _ _ _ _ children _ =>
    match children with
    | [] => level
    | c :: cs => calcMaxChildDepth (c :: cs) 0

/-- The `max_child_depth` accumulation loop of `_calculate_node_depth`. -/
def calcMaxChildDepth : List NodeData → Nat → Nat
  | [], acc => acc
  | c :: cs, acc => calcMaxChildDepth cs (max acc (calculateNodeDepth c))

end

mutual

/-- The node depth as the specification words it: recursively
`max(level of self, max of child depths)`, a childless leaf having depth
equal to its own level.  Written from the spec sentence for comparison with
`calculateNodeDepth`. -/
def specNodeDepth : NodeData → Nat
  | .mk _ level _ _ _ _ _ children _ => max level (specMaxChildDepth children)

/-- Maximum of `specNodeDepth` over a child list (`0` for no children). -/
def specMaxChildDepth : List NodeData → Nat
  | [] => 0
  | c :: cs => max (specNodeDepth c) (specMaxChildDepth cs)

end

mutual

/-- Structural invariant of walker-produced nodes: every child's `level` is
the parent's `level + 1`. -/
def levelsOK : NodeData → Bool
  | .mk _ level _ _ _ _ _ children _ => childrenLevelsOK children (level + 1)

/-- All nodes of the list are at the given level and satisfy `levelsOK`. -/
def childrenLevelsOK : List NodeData → Nat → Bool
  | [], _ => true
  | c :: cs, lvl => (c.level == lvl) && levelsOK c && childrenLevelsOK cs lvl

end

/-- Result of `extract_assembly_tree`: either the `{"extraction_error": msg}`
dict (kernel unavailable, or an exception escaping the loop) or the
assembly-tree dict. -/
inductive AssemblyTreeResult where
  | err (extraction_error : String)
  | tree (root_assemblies : List NodeData) (total_free_shapes : Nat)
      (hierarchy_depth : Nat)

/-- The root loop of `extract_assembly_tree`: processes each free-shape
label at level 0, appends its node and folds the running maximum depth.  An
exception from `_process_assembly_node` escapes to the outer `try` (the
partially built tree dict is discarded there). -/
def treeLoop : List Label → List NodeData × Nat →
    Except String (List NodeData × Nat)
  | [], acc => .ok acc
  | l :: rest, (nds, dep) =>
    match processAssemblyNode l 0 with
    | .error e => .error e
    | .ok nd => treeLoop rest (nds ++ [nd], max dep (calculateNodeDepth nd))

/-- `extract_assembly_tree` (src/core/assembly_extractor.py:20-49).
`occAvailable` models `self.opencascade_available`; `freeShapes` models the
`GetFreeShapes` call (with `.error` for an exception during kernel setup or
enumeration).  `total_free_shapes` is `free_shapes.Length()`. -/
def extractAssemblyTree (occAvailable : Bool)
    (freeShapes : Except String (List Label)) : AssemblyTreeResult :=
  if !occAvailable then .err "OpenCASCADE not available"
  else
    match freeShapes with
    | .error e => .err e
    | .ok labels =>
      match treeLoop labels ([], 0) with
      | .error e => .err e
      | .ok (nodes, depth) => .tree nodes labels.length depth

/-- Python `str(i).zfill(4)`-style padding used by `f"part_{i:04d}"`. -/
def zfill4 (n : Nat) : String :=
  let s := toString n
  String.mk (List.replicate (4 - s.length) '0') ++ s

/-- The `shape_analysis` field of a flat part record: the analysis dict or
the `{"error": "Null shape"}` dict (the initial `{}` is always
overwritten). -/
inductive PartShapeAnalysis where
  | nullShape
  | analysis (a : Analysis)
deriving DecidableEq, Repr

/-- One flat part dict built by `extract_all_parts`.  `color_data` and
`custom_properties` are initialized to `{}` and never filled by this
function; they are modelled as `Unit`. -/
structure PartData where
  part_id : String
  label_id : String
  name : String
  shape_analysis : PartShapeAnalysis
  color_data : Unit
  custom_properties : Unit
  shape_type : String
deriving DecidableEq, Repr

/-- The per-iteration body of `extract_all_parts` for label `i` (1-based):
the part dict literal (whose `shape_type` entry calls `IsSimpleShape`,
which can raise) followed by `GetShape` (which can raise) and the
never-raising comprehensive analysis. -/
def processPart (l : Label) (i : Nat) : Except String PartData :=
  match (Label.data l).isSimple with
  | .error e => .error e
  | .ok simple =>
    match (Label.data l).getShape with
    | .error e => .error e
    | .ok shape =>
      .ok { part_id := "part_" ++ zfill4 i,
            label_id := "label_" ++ toString i,
            name := extractLabelName (Label.data l),
            shape_analysis :=
              if shape.isNull then .nullShape
              else .analysis (analyzeShapeComprehensive shape),
            color_data := (), custom_properties := (),
            shape_type := if !simple then "assembly" else "part" }

/-- The `for i in range(1, ...)` loop of `extract_all_parts`: per part,
append and increment; the first exception stops the loop (it is caught only
by the function-level `except`, which records it), keeping the parts and
count accumulated so far. -/
def extractPartsLoop : List Label → Nat →
    List PartData × Nat × Option String
  | [], _ => ([], 0, none)
  | l :: rest, i =>
    match processPart l i with
    | .error e => ([], 0, some e)
    | .ok pd =>
      let (ps, n, err) := extractPartsLoop rest (i + 1)
      (pd :: ps, n + 1, err)

/-- The `parts_data` dict returned by `extract_all_parts`. -/
structure PartsData where
  total_parts : Nat
  parts_list : List PartData
  extraction_error : Option String
deriving DecidableEq, Repr

/-- `extract_all_parts` (src/core/assembly_extractor.py:51-93).
`freeShapes` models the kernel import plus `GetFreeShapes` (with `.error`
for an exception there, caught by the function-level `except`). -/
def extractAllParts (freeShapes : Except String (List Label)) : PartsData :=
  match freeShapes with
  | .error e => { total_parts := 0, parts_list := [], extraction_error := some e }
  | .ok labels =>
    let (ps, n, err) := extractPartsLoop labels 1
    { total_parts := n, parts_list := ps, extraction_error := err }

/-- The first exception `extract_all_parts` would hit while processing one
label, independent of the loop index: `IsSimpleShape` first, then
`GetShape` (`none` = the iteration completes). -/
def labelRaises (l : Label) : Option String :=
  match (Label.data l).isSimple with
  | .error e => some e
  | .ok _ =>
    match (Label.data l).getShape with
    | .error e => some e
    | .ok _ => none

/-- Oracle model of one FreeCAD `obj.Shape` as consumed by the topology
block of `src/bom_extraction.py:79-91`: per-kind `hasattr`/`len` results
(`none` = attribute absent) and an optional exception raised inside the
single `try` that wraps all four reads. -/
structure FcShapeData where
  vertexes : Option Nat
  edges : Option Nat
  faces : Option Nat
  solids : Option Nat
  topoRaise : Option String
deriving DecidableEq, Repr

/-- The four local topology variables after the `try` block of
`src/bom_extraction.py:85-91`: all zero on an exception, otherwise each
`len(...)` with default `0` — except `solids`, whose `hasattr` default is
`1`. -/
def fcTopology (s : FcShapeData) : Nat × Nat × Nat × Nat :=
  match s.topoRaise with
  | some _ => (0, 0, 0, 0)
  | none => (s.vertexes.getD 0, s.edges.getD 0, s.faces.getD 0,
      s.solids.getD 1)

/-- The `"topology"` sub-dict of `part_info["shape_analysis"]` in
`src/bom_extraction.py:98-103`. -/
structure BomTopology where
  vertices : Nat
  edges : Nat
  faces : Nat
  solids : Nat
deriving DecidableEq, Repr

/-- The topology summary of one flat BOM part record
(`src/bom_extraction.py:94-114`): the extracted counts with
`"solids": max(solids, 1)`. -/
def bomPartTopology (s : FcShapeData) : BomTopology :=
  match fcTopology s with
  | (v, e, f, sol) =>
    { vertices := v, edges := e, faces := f, solids := max sol 1 }

/-- The hex string as §4.2 of the specification words it: each channel is
`round(component*255)` truncated to int, zero-padded to 2 lowercase hex
digits.  Written from the spec sentence for comparison with `hexOfRgb`. -/
def specHexOfRgb (r g b : ℚ) : String :=
  "#" ++ py02xInt (pyRound (r * 255)) ++ py02xInt (pyRound (g * 255)) ++
    py02xInt (pyRound (b * 255))

/-- Lowercase hexadecimal digit test. -/
def isLowerHexDigit (c : Char) : Bool :=
  ('0' ≤ c && c ≤ '9') || ('a' ≤ c && c ≤ 'f')

/-- Numeric value of a lowercase hexadecimal digit. -/
def hexVal (c : Char) : Nat :=
  if c ≤ '9' then c.toNat - 48 else c.toNat - 87

/-- `s` is a 2-character lowercase-hex rendering that decodes back to `n`. -/
def twoLowerHexB (s : String) (n : Nat) : Bool :=
  s.length == 2 && s.data.all isLowerHexDigit &&
    (s.data.map hexVal).foldl (fun a dgt => 16 * a + dgt) 0 == n

/-! ### Concrete fixtures used by witnesses and counterexamples -/

/-- A null shape whose every other oracle raises: any use beyond the null
check would be visible. -/
def hostileNullShape : Shape :=
  { isNull := true, hasShapeType := true, shapeTypeVal := .error "unused",
    topoCount := fun _ => .error "unused",
    volumeProps := .error "unused", surfaceArea := .error "unused",
    bbox := .error "unused" }

/-- A well-behaved leaf label owning a null shape. -/
def plainLeafData : LabelData :=
  { labelId := "L1", nameAttr := some (.ok "Widget"), isSimple := .ok true,
    getShape := .ok hostileNullShape, colorGet := .ok none,
    commentAttr := .ok none, compStatus := .ok false }

/-- `plainLeafData` as a label without components. -/
def plainLeaf : Label := .node plainLeafData []

/-- The node the walker emits for `plainLeaf` at level 0. -/
def plainLeafNode : NodeData :=
  .mk "L1" 0 "Widget" "part" .empty .noColor .empty [] none

/-- A leaf label used inside the depth witness assembly. -/
def branchChildData : LabelData :=
  { labelId := "C", nameAttr := some (.ok "Leaf"), isSimple := .ok true,
    getShape := .ok hostileNullShape, colorGet := .ok none,
    commentAttr := .ok none, compStatus := .ok false }

/-- An assembly root with one component child. -/
def branchRootData : LabelData :=
  { labelId := "R", nameAttr := some (.ok "Asm"), isSimple := .ok false,
    getShape := .ok hostileNullShape, colorGet := .ok none,
    commentAttr := .ok none, compStatus := .ok true }

/-- The one-root-one-child label tree. -/
def branchRoot : Label := .node branchRootData [.node branchChildData []]

/-- The node the walker emits for the child of `branchRoot`. -/
def branchChildNode : NodeData :=
  .mk "C" 1 "Leaf" "part" .empty .noColor .empty [] none

/-- The node the walker emits for `branchRoot`. -/
def branchRootNode : NodeData :=
  .mk "R" 0 "Asm" "assembly" .empty .noColor .empty [branchChildNode] none

/-- A label whose shape fetch raises while its classification succeeds. -/
def shapeFetchFailData : LabelData :=
  { labelId := "W", nameAttr := some (.ok "Whoops"), isSimple := .ok true,
    getShape := .error "shape fetch failed", colorGet := .ok none,
    commentAttr := .ok none, compStatus := .ok false }

/-- A child label whose classification call raises. -/
def badClassData : LabelData :=
  { labelId := "bad", nameAttr := none,
    isSimple := .error "classification failed",
    getShape := .ok hostileNullShape, colorGet := .ok none,
    commentAttr := .ok none, compStatus := .ok false }

/-- `badClassData` as a label. -/
def badClassChild : Label := .node badClassData []

/-- Data of a well-behaved sibling placed before the failing child. -/
def goodSiblingAData : LabelData :=
  { labelId := "S1", nameAttr := some (.ok "S1"), isSimple := .ok true,
    getShape := .ok hostileNullShape, colorGet := .ok none,
    commentAttr := .ok none, compStatus := .ok false }

/-- A well-behaved sibling placed before the failing child. -/
def goodSiblingA : Label := .node goodSiblingAData []

/-- Data of a well-behaved sibling placed after the failing child. -/
def goodSiblingBData : LabelData :=
  { labelId := "S2", nameAttr := some (.ok "S2"), isSimple := .ok true,
    getShape := .ok hostileNullShape, colorGet := .ok none,
    commentAttr := .ok none, compStatus := .ok false }

/-- A well-behaved sibling placed after the failing child. -/
def goodSiblingB : Label := .node goodSiblingBData []

/-- Data of an assembly whose second component child fails classification. -/
def fragileParentData : LabelData :=
  { labelId := "P", nameAttr := some (.ok "P"), isSimple := .ok false,
    getShape := .ok hostileNullShape, colorGet := .ok none,
    commentAttr := .ok none, compStatus := .ok true }

/-- An assembly whose second component child fails classification. -/
def fragileParent : Label :=
  .node fragileParentData [goodSiblingA, badClassChild, goodSiblingB]

/-- Data of a well-behaved flat part. -/
def flatGoodAData : LabelData :=
  { labelId := "F1", nameAttr := some (.ok "Bolt"), isSimple := .ok true,
    getShape := .ok hostileNullShape, colorGet := .ok none,
    commentAttr := .ok none, compStatus := .ok false }

/-- A well-behaved flat part. -/
def flatGoodA : Label := .node flatGoodAData []

/-- Data of a flat part whose classification call raises. -/
def flatBadData : LabelData :=
  { labelId := "F2", nameAttr := some (.ok "Broken"),
    isSimple := .error "boom", getShape := .ok hostileNullShape,
    colorGet := .ok none, commentAttr := .ok none, compStatus := .ok false }

/-- A flat part whose classification call raises. -/
def flatBad : Label := .node flatBadData []

/-- Data of a well-behaved flat part placed after the failing one. -/
def flatGoodBData : LabelData :=
  { labelId := "F3", nameAttr := some (.ok "Nut"), isSimple := .ok true,
    getShape := .ok hostileNullShape, colorGet := .ok none,
    commentAttr := .ok none, compStatus := .ok false }

/-- A well-behaved flat part placed after the failing one. -/
def flatGoodB : Label := .node flatGoodBData []

/-- A non-null shape whose topology enumeration raises while its geometry
and bounding kernel calls would succeed. -/
def topoFailShape : Shape :=
  { isNull := false, hasShapeType := true, shapeTypeVal := .ok 2,
    topoCount := fun _ => .error "topology enumeration failed",
    volumeProps := .ok (5, (0, 0, 0)), surfaceArea := .ok 30,
    bbox := .ok (some (0, 0, 0, 1, 1, 1)) }

/-- A non-null shape whose volume integration raises but whose bounding-box
computation succeeds. -/
def geomFailShape : Shape :=
  { isNull := false, hasShapeType := true, shapeTypeVal := .ok 2,
    topoCount := fun _ => .ok 3,
    volumeProps := .error "volume failed", surfaceArea := .ok 30,
    bbox := .ok (some (0, 0, 0, 2, 2, 2)) }

/-- A label carrying the resolved color `rgb = (1/2, 0, 1)`. -/
def halfRedData : LabelData :=
  { labelId := "HR", nameAttr := none, isSimple := .ok true,
    getShape := .ok hostileNullShape, colorGet := .ok (some (1/2, 0, 1)),
    commentAttr := .ok none, compStatus := .ok false }

/-- A label carrying the resolved color `rgb = (1, 0, 1)`. -/
def fullMagentaData : LabelData :=
  { labelId := "FM", nameAttr := none, isSimple := .ok true,
    getShape := .ok hostileNullShape, colorGet := .ok (some (1, 0, 1)),
    commentAttr := .ok none, compStatus := .ok false }

/-- A non-null simple shape whose kernel reports zero solids. -/
def zeroSolidShape : Shape :=
  { isNull := false, hasShapeType := true, shapeTypeVal := .ok 2,
    topoCount := fun k => .ok (match k with | .solid => 0 | _ => 1),
    volumeProps := .ok (0, (0, 0, 0)), surfaceArea := .ok 0,
    bbox := .ok none }

/-- Data of a flat-listed label owning `zeroSolidShape`. -/
def zeroSolidLabelData : LabelData :=
  { labelId := "Z", nameAttr := some (.ok "Sheet"), isSimple := .ok true,
    getShape := .ok zeroSolidShape, colorGet := .ok none,
    commentAttr := .ok none, compStatus := .ok false }

/-- `zeroSolidLabelData` as a label. -/
def zeroSolidLabel : Label := .node zeroSolidLabelData []

/-- A FreeCAD shape oracle reporting zero solids. -/
def wFcZero : FcShapeData :=
  { vertexes := some 8, edges := some 12, faces := some 6, solids := some 0,
    topoRaise := none }

/-- Per-kind counts with zero solids for the nested-view witness. -/
def wVals : TopoKind → Nat := fun k => match k with | .solid => 0 | _ => 2

/-- A non-null shape whose topology oracle returns `wVals`. -/
def wNestedShape : Shape :=
  { isNull := false, hasShapeType := true, shapeTypeVal := .ok 2,
    topoCount := fun k => .ok (wVals k), volumeProps := .ok (1, (0, 0, 0)),
    surfaceArea := .ok 6, bbox := .ok none }

/-! ### C4: total_parts always equals the length of parts_list -/

theorem extractPartsLoop_count_eq_length :
    ∀ (ls : List Label) (i : Nat),
      (extractPartsLoop ls i).2.1 = (extractPartsLoop ls i).1.length := by
  intro ls
  induction ls with
  | nil => intro i; simp [extractPartsLoop]
  | cons l rest ih =>
    intro i
    simp only [extractPartsLoop]
    cases processPart l (i) with
    | error e => simp
    | ok pd => simp [ih (i + 1)]

/-- C4: for every flat-listing run (including runs cut short by a recorded
`extraction_error`), the `total_parts` value of the returned record equals
the length of its `parts_list`. -/
theorem total_parts_eq_length :
    ∀ fs : Except String (List Label),
      (extractAllParts fs).total_parts =
        (extractAllParts fs).parts_list.length := by
  intro fs
  cases fs with
  | error e => simp [extractAllParts]
  | ok labels =>
    simp only [extractAllParts]
    have h := extractPartsLoop_count_eq_length labels 1
    rcases hL : extractPartsLoop labels 1 with ⟨ps, n, err⟩
    rw [hL] at h
    simpa using h

/-! ### C5: analyzing a null shape -/

/-- C5: applied to a null shape, the analyzer returns exactly the constant
record `{is_valid: false, analysis_error: "Shape is null/invalid"}` with
empty topology/geometry/bounding sub-dicts and the default shape type; in
particular the result does not depend on any other kernel capability of the
shape (no further computation) and no exception escapes. -/
theorem analyze_null_shape :
    ∀ s : Shape, s.isNull = true →
      analyzeShapeComprehensive s = nullShapeAnalysis ∧
      (analyzeShapeComprehensive s).is_valid = false ∧
      (analyzeShapeComprehensive s).analysis_error =
        some "Shape is null/invalid" ∧
      (analyzeShapeComprehensive s).topology = [] ∧
      (analyzeShapeComprehensive s).geometry_properties = .empty ∧
      (analyzeShapeComprehensive s).bounding_info = .empty := by
  intro s h
  have hmain : analyzeShapeComprehensive s = nullShapeAnalysis := by
    simp [analyzeShapeComprehensive, h]
  refine ⟨hmain, ?_, ?_, ?_, ?_, ?_⟩ <;> rw [hmain] <;> rfl

theorem analyze_null_shape_witness :
    hostileNullShape.isNull = true ∧
    analyzeShapeComprehensive hostileNullShape = nullShapeAnalysis ∧
    (analyzeShapeComprehensive hostileNullShape).is_valid = false :=
  ⟨rfl, (analyze_null_shape hostileNullShape rfl).1,
    (analyze_null_shape hostileNullShape rfl).2.1⟩

/-! ### C10: one root node per free shape -/

theorem treeLoop_ok_length :
    ∀ (ls : List Label) (nds : List NodeData) (dep : Nat)
      (out : List NodeData × Nat),
      treeLoop ls (nds, dep) = .ok out →
      out.1.length = nds.length + ls.length := by
  intro ls
  induction ls with
  | nil =>
    intro nds dep out h
    simp [treeLoop] at h
    simp [← h]
  | cons l rest ih =>
    intro nds dep out h
    simp only [treeLoop] at h
    cases hp : processAssemblyNode l 0 with
    | error e => rw [hp] at h; cases h
    | ok nd =>
      rw [hp] at h
      have := ih (nds ++ [nd]) (max dep (calculateNodeDepth nd)) out h
      simp at this
      simp [this]
      omega

/-- C10: whenever `extract_assembly_tree` returns the assembly-tree record
(no top-level `extraction_error`), the number of root assembly nodes equals
the reported `total_free_shapes`: exactly one node is appended per free
shape, including shapes whose per-node processing recorded an error. -/
theorem roots_length_eq_total_free_shapes :
    ∀ (occ : Bool) (fs : Except String (List Label))
      (roots : List NodeData) (n d : Nat),
      extractAssemblyTree occ fs = .tree roots n d → roots.length = n := by
  intro occ fs roots n d h
  cases occ with
  | false => simp [extractAssemblyTree] at h
  | true =>
    cases fs with
    | error e => simp [extractAssemblyTree] at h
    | ok labels =>
      simp only [extractAssemblyTree, Bool.not_true] at h
      cases hL : treeLoop labels ([], 0) with
      | error e => rw [hL] at h; simp at h
      | ok out =>
        rw [hL] at h
        rcases out with ⟨nodes, depth⟩
        simp at h
        obtain ⟨h1, h2, _⟩ := h
        have := treeLoop_ok_length labels [] 0 (nodes, depth) hL
        simp at this
        rw [← h1, ← h2]
        exact this

theorem roots_length_eq_total_free_shapes_witness :
    extractAssemblyTree true (.ok [plainLeaf]) = .tree [plainLeafNode] 1 0 ∧
    [plainLeafNode].length = 1 :=
  ⟨rfl, roots_length_eq_total_free_shapes true (.ok [plainLeaf])
    [plainLeafNode] 1 0 rfl⟩

/-! ### C6: hierarchy depth computation -/

mutual

theorem walker_levels : ∀ (l : Label) (lvl : Nat) (nd : NodeData),
    processAssemblyNode l lvl = .ok nd →
    nd.level = lvl ∧ levelsOK nd = true
  | .node d cs, lvl, nd, h => by
    simp only [processAssemblyNode] at h
    cases hS : d.isSimple with
    | error e => rw [hS] at h; cases h
    | ok b =>
      rw [hS] at h
      cases hG : d.getShape with
      | error e =>
        rw [hG] at h
        cases h
        simp [NodeData.level, levelsOK, childrenLevelsOK]
      | ok shape =>
        rw [hG] at h
        cases b with
        | true =>
          simp only [if_pos] at h
          cases h
          simp [NodeData.level, levelsOK, childrenLevelsOK]
        | false =>
          simp only [Bool.false_eq_true, if_false] at h
          cases hC : d.compStatus with
          | error e =>
            rw [hC] at h
            cases h
            simp [NodeData.level, levelsOK, childrenLevelsOK]
          | ok flag =>
            rw [hC] at h
            cases flag with
            | false =>
              simp only [Bool.false_eq_true, if_false] at h
              cases h
              simp [NodeData.level, levelsOK, childrenLevelsOK]
            | true =>
              simp only [if_pos] at h
              rcases hPC : processChildren cs (lvl + 1) with ⟨children, err⟩
              rw [hPC] at h
              cases h
              refine ⟨rfl, ?_⟩
              have := walker_children_levels cs (lvl + 1)
              rw [hPC] at this
              simpa [levelsOK] using this

theorem walker_children_levels : ∀ (ls : List Label) (lvl : Nat),
    childrenLevelsOK (processChildren ls lvl).1 lvl = true
  | [], lvl => by simp [processChildren, childrenLevelsOK]
  | c :: rest, lvl => by
    simp only [processChildren]
    cases hp : processAssemblyNode c lvl with
    | error e => simp [childrenLevelsOK]
    | ok nd =>
      have hnd := walker_levels c lvl nd hp
      have hrest := walker_children_levels rest lvl
      rcases hr : processChildren rest lvl with ⟨more, err⟩
      rw [hr] at hrest
      simp only at hrest
      simp [childrenLevelsOK, hnd.1, hnd.2, hrest]

end

theorem specNodeDepth_ge_level : ∀ nd : NodeData, nd.level ≤ specNodeDepth nd
  | .mk _ lvl _ _ _ _ _ children _ => by
    simp only [specNodeDepth, NodeData.level]
    exact Nat.le_max_left _ _

theorem childrenLevelsOK_mem :
    ∀ (ls : List NodeData) (lvl : Nat), childrenLevelsOK ls lvl = true →
      ∀ c ∈ ls, c.level = lvl ∧ levelsOK c = true := by
  intro ls lvl
  induction ls with
  | nil => intro _ c hc; cases hc
  | cons c0 cs ih =>
    intro h c hc
    simp only [childrenLevelsOK, Bool.and_eq_true, beq_iff_eq] at h
    obtain ⟨⟨hl, hok⟩, hrest⟩ := h
    cases hc with
    | head => exact ⟨hl, hok⟩
    | tail _ hm => exact ih hrest c hm

mutual

theorem depth_eq_spec : ∀ nd : NodeData, levelsOK nd = true →
    calculateNodeDepth nd = specNodeDepth nd
  | .mk a lvl nm tp si ci ats children pe, h => by
    cases children with
    | nil => simp [calculateNodeDepth, specNodeDepth, specMaxChildDepth]
    | cons c0 cs0 =>
      have hch : childrenLevelsOK (c0 :: cs0) (lvl + 1) = true := by
        simpa [levelsOK] using h
      have hfold := depth_fold (c0 :: cs0) (lvl + 1) hch 0
      have hge : lvl + 1 ≤ specMaxChildDepth (c0 :: cs0) := by
        have hc0 := childrenLevelsOK_mem (c0 :: cs0) (lvl + 1) hch c0 (by simp)
        calc lvl + 1 = c0.level := hc0.1.symm
          _ ≤ specNodeDepth c0 := specNodeDepth_ge_level c0
          _ ≤ specMaxChildDepth (c0 :: cs0) := by
            simp only [specMaxChildDepth]
            exact Nat.le_max_left _ _
      simp only [calculateNodeDepth, specNodeDepth]
      rw [hfold]
      omega

theorem depth_fold : ∀ (ls : List NodeData) (lvl : Nat),
    childrenLevelsOK ls lvl = true → ∀ acc : Nat,
      calcMaxChildDepth ls acc = max acc (specMaxChildDepth ls)
  | [], lvl, h, acc => by simp [calcMaxChildDepth, specMaxChildDepth]
  | c :: cs, lvl, h, acc => by
    have hparts : levelsOK c = true ∧ childrenLevelsOK cs lvl = true := by
      simp only [childrenLevelsOK, Bool.and_eq_true] at h
      exact ⟨h.1.2, h.2⟩
    have hc := depth_eq_spec c hparts.1
    have ih := depth_fold cs lvl hparts.2 (max acc (calculateNodeDepth c))
    simp only [calcMaxChildDepth, specMaxChildDepth]
    rw [ih, hc]
    omega

end

theorem treeLoop_spec : ∀ (ls : List Label) (nds : List NodeData) (dep : Nat)
    (nodes : List NodeData) (depth : Nat),
    treeLoop ls (nds, dep) = .ok (nodes, depth) →
    ∃ newNds, nodes = nds ++ newNds ∧
      (∀ nd ∈ newNds, ∃ l, processAssemblyNode l 0 = .ok nd) ∧
      depth = newNds.foldl (fun a r => max a (calculateNodeDepth r)) dep := by
  intro ls
  induction ls with
  | nil =>
    intro nds dep nodes depth h
    simp only [treeLoop, Except.ok.injEq, Prod.mk.injEq] at h
    refine ⟨[], by simp [h.1.symm], by simp, by simp [h.2.symm]⟩
  | cons l rest ih =>
    intro nds dep nodes depth h
    simp only [treeLoop] at h
    cases hp : processAssemblyNode l 0 with
    | error e => rw [hp] at h; cases h
    | ok nd =>
      rw [hp] at h
      obtain ⟨newNds, h1, h2, h3⟩ :=
        ih (nds ++ [nd]) (max dep (calculateNodeDepth nd)) nodes depth h
      refine ⟨nd :: newNds, by simp [h1], ?_, by simpa using h3⟩
      intro x hx
      cases hx with
      | head => exact ⟨l, hp⟩
      | tail _ hm => exact h2 x hm

theorem foldl_max_congr : ∀ (xs : List NodeData) (f g : NodeData → Nat),
    (∀ x ∈ xs, f x = g x) → ∀ a : Nat,
      xs.foldl (fun acc x => max acc (f x)) a =
        xs.foldl (fun acc x => max acc (g x)) a := by
  intro xs f g
  induction xs with
  | nil => intro _ a; rfl
  | cons x xs ih =>
    intro h a
    simp only [List.foldl_cons]
    rw [h x (by simp)]
    exact ih (fun y hy => h y (by simp [hy])) _

theorem specMax_const_one : ∀ ls : List NodeData, ls ≠ [] →
    (∀ x ∈ ls, specNodeDepth x = 1) → specMaxChildDepth ls = 1 := by
  intro ls
  induction ls with
  | nil => intro h; exact absurd rfl h
  | cons c cs ih =>
    intro _ h
    cases cs with
    | nil => simp [specMaxChildDepth, h c (by simp)]
    | cons c2 cs2 =>
      have := ih (by simp) (fun y hy => h y (by simp [hy]))
      simp [specMaxChildDepth, h c (by simp)] at this ⊢
      omega

/-- C6: for every assembly tree the traversal returns, `hierarchy_depth`
equals the maximum over all root nodes of the recursive spec depth
`max(level of self, max of child depths)` (a childless leaf having depth
equal to its own level); in particular, with a single root node the value is
`0` when that root has no children and `1` when it has one level of
children. -/
theorem hierarchy_depth_eq_spec_depth :
    ∀ (occ : Bool) (fs : Except String (List Label))
      (roots : List NodeData) (n d : Nat),
      extractAssemblyTree occ fs = .tree roots n d →
      d = roots.foldl (fun a r => max a (specNodeDepth r)) 0 ∧
      (∀ r, roots = [r] → NodeData.children r = [] → d = 0) ∧
      (∀ r, roots = [r] → NodeData.children r ≠ [] →
        (∀ c ∈ NodeData.children r, NodeData.children c = []) → d = 1) := by
  intro occ fs roots n d h
  cases occ with
  | false => simp [extractAssemblyTree] at h
  | true =>
    cases fs with
    | error e => simp [extractAssemblyTree] at h
    | ok labels =>
      simp only [extractAssemblyTree, Bool.not_true] at h
      cases hL : treeLoop labels ([], 0) with
      | error e => rw [hL] at h; simp at h
      | ok out =>
        rw [hL] at h
        rcases out with ⟨nodes, depth⟩
        simp at h
        obtain ⟨hroots, _, hdep⟩ := h
        subst roots; subst d
        obtain ⟨newNds, h1, h2, h3⟩ := treeLoop_spec labels [] 0 nodes depth hL
        simp only [List.nil_append] at h1
        subst nodes
        have hinv : ∀ r ∈ newNds, r.level = 0 ∧ levelsOK r = true := by
          intro r hr
          obtain ⟨l, hl⟩ := h2 r hr
          exact walker_levels l 0 r hl
        have hcalc : ∀ r ∈ newNds, calculateNodeDepth r = specNodeDepth r :=
          fun r hr => depth_eq_spec r (hinv r hr).2
        refine ⟨?_, ?_, ?_⟩
        · rw [h3]
          exact foldl_max_congr newNds _ _ hcalc 0
        · intro r hr hleaf
          subst hr
          have hr0 := hinv r (by simp)
          have hcr := hcalc r (by simp)
          rw [h3]
          simp only [List.foldl_cons, List.foldl_nil]
          rcases r with ⟨a, lvl, nm, tp, si, ci, ats, ch, pe⟩
          simp only [NodeData.children] at hleaf
          subst hleaf
          simp only [NodeData.level] at hr0
          simp [calculateNodeDepth, hr0.1]
        · intro r hr hne hchleaf
          subst hr
          have hr0 := hinv r (by simp)
          have hcr := hcalc r (by simp)
          rw [h3]
          simp only [List.foldl_cons, List.foldl_nil]
          rcases r with ⟨a, lvl, nm, tp, si, ci, ats, ch, pe⟩
          simp only [NodeData.children] at hne hchleaf
          simp only [NodeData.level] at hr0
          obtain ⟨hlvl, hok⟩ := hr0
          subst hlvl
          have hch : childrenLevelsOK ch 1 = true := by
            simpa [levelsOK] using hok
          have hspec1 : ∀ c ∈ ch, specNodeDepth c = 1 := by
            intro c hc
            have hcl := childrenLevelsOK_mem ch 1 hch c hc
            have hcleaf := hchleaf c hc
            rcases c with ⟨a2, lvl2, nm2, tp2, si2, ci2, ats2, ch2, pe2⟩
            simp only [NodeData.children] at hcleaf
            subst hcleaf
            simp only [NodeData.level] at hcl
            simp [specNodeDepth, specMaxChildDepth, hcl.1]
          have hmax1 : specMaxChildDepth ch = 1 := specMax_const_one ch hne hspec1
          rw [hcr]
          simp [specNodeDepth, hmax1]

theorem hierarchy_depth_eq_spec_depth_witness :
    extractAssemblyTree true (.ok [branchRoot]) = .tree [branchRootNode] 1 1 ∧
    (1 : Nat) =
      [branchRootNode].foldl (fun a r => max a (specNodeDepth r)) 0 :=
  ⟨rfl, (hierarchy_depth_eq_spec_depth true (.ok [branchRoot])
    [branchRootNode] 1 1 rfl).1⟩

/-! ### C2: per-node failure isolation in the walker -/

theorem processAssemblyNode_classified :
    ∀ (d : LabelData) (cs : List Label) (lvl : Nat) (b : Bool),
      d.isSimple = .ok b →
      ∃ si ci ats ch pe,
        processAssemblyNode (.node d cs) lvl =
          .ok (.mk d.labelId lvl (extractLabelName d)
            (if !b then "assembly" else "part") si ci ats ch pe) ∧
        (∀ e, d.getShape = .error e → pe = some e) := by
  intro d cs lvl b hS
  cases hG : d.getShape with
  | error e0 =>
    refine ⟨.empty, .empty, .empty, [], some e0, ?_, ?_⟩
    · simp [processAssemblyNode, hS, hG]
    · intro e he; cases he; rfl
  | ok shape =>
    cases b with
    | true =>
      refine ⟨if shape.isNull then ShapeInfo.empty
          else .analysis (analyzeShapeComprehensive shape),
        extractLabelColor d, extractLabelAttributes d, [], none, ?_, ?_⟩
      · simp [processAssemblyNode, hS, hG]
      · intro e he; cases he
    | false =>
      cases hC : d.compStatus with
      | error e0 =>
        refine ⟨if shape.isNull then ShapeInfo.empty
            else .analysis (analyzeShapeComprehensive shape),
          extractLabelColor d, extractLabelAttributes d, [], some e0, ?_, ?_⟩
        · simp [processAssemblyNode, hS, hG, hC]
        · intro e he; cases he
      | ok flag =>
        cases flag with
        | false =>
          refine ⟨if shape.isNull then ShapeInfo.empty
              else .analysis (analyzeShapeComprehensive shape),
            extractLabelColor d, extractLabelAttributes d, [], none, ?_, ?_⟩
          · simp [processAssemblyNode, hS, hG, hC]
          · intro e he; cases he
        | true =>
          refine ⟨if shape.isNull then ShapeInfo.empty
              else .analysis (analyzeShapeComprehensive shape),
            extractLabelColor d, extractLabelAttributes d,
            (processChildren cs (lvl + 1)).1,
            (processChildren cs (lvl + 1)).2, ?_, ?_⟩
          · simp only [processAssemblyNode, hS, hG, hC, Bool.not_false,
              if_pos, Bool.false_eq_true, if_false]
          · intro e he; cases he

/-- C2 (amended): whenever the classification call `IsSimpleShape` succeeds
for a label, the walker emits a node record for it (with the requested level
and the label id), and an exception from any later step — here witnessed for
`GetShape` — is caught and recorded as `processing_error` on that record.
An exception from the classification call itself, by contrast, propagates to
the caller (see the counterexample), where the parent records it and stops
processing the remaining siblings. -/
theorem classified_node_always_emitted :
    ∀ (d : LabelData) (cs : List Label) (lvl : Nat) (b : Bool),
      d.isSimple = .ok b →
      (processAssemblyNode (.node d cs) lvl).map
          (fun nd => (nd.level, nd.label_id)) = .ok (lvl, d.labelId) ∧
      (∀ e, d.getShape = .error e →
        (processAssemblyNode (.node d cs) lvl).map NodeData.processing_error
          = .ok (some e)) := by
  intro d cs lvl b hS
  obtain ⟨si, ci, ats, ch, pe, heq, herr⟩ :=
    processAssemblyNode_classified d cs lvl b hS
  rw [heq]
  constructor
  · simp [Except.map, NodeData.level, NodeData.label_id]
  · intro e he
    simp [Except.map, NodeData.processing_error, herr e he]

theorem classified_node_always_emitted_witness :
    (processAssemblyNode (.node shapeFetchFailData []) 3).map
        (fun nd => (nd.level, nd.label_id)) = .ok (3, "W") ∧
    (processAssemblyNode (.node shapeFetchFailData []) 3).map
        NodeData.processing_error = .ok (some "shape fetch failed") := by
  have h := classified_node_always_emitted shapeFetchFailData [] 3 true rfl
  exact ⟨h.1, h.2 "shape fetch failed" rfl⟩

/-- C2 counterexample: an exception in the classification step of a child is
NOT caught on that child — no record is emitted for it — and it aborts the
processing of the child's later sibling: the parent of three components ends
up with a single child record plus the error recorded at parent level. -/
theorem classification_failure_aborts_sibling_cex :
    processAssemblyNode badClassChild 1 = .error "classification failed" ∧
    (processAssemblyNode fragileParent 0).map
        (fun nd => (nd.children.length, nd.processing_error)) =
      .ok (1, some "classification failed") := ⟨rfl, rfl⟩

/-! ### C3: per-part failure handling in the flat lister -/

theorem processPart_error_char :
    ∀ (l : Label) (i : Nat) (e : String),
      labelRaises l = some e → processPart l i = .error e := by
  intro l i e h
  rcases l with ⟨d, cs⟩
  simp only [labelRaises, Label.data] at h
  simp only [processPart, Label.data]
  cases hS : d.isSimple with
  | error e0 =>
    rw [hS] at h
    simp only [Option.some.injEq] at h
    simp [h]
  | ok b =>
    rw [hS] at h
    cases hG : d.getShape with
    | error e0 =>
      rw [hG] at h
      simp only [Option.some.injEq] at h
      simp [hG, h]
    | ok shape => rw [hG] at h; cases h

theorem processPart_ok_char :
    ∀ (l : Label) (i : Nat), labelRaises l = none →
      ∃ pd, processPart l i = .ok pd := by
  intro l i h
  rcases l with ⟨d, cs⟩
  simp only [labelRaises, Label.data] at h
  simp only [processPart, Label.data]
  cases hS : d.isSimple with
  | error e0 => rw [hS] at h; cases h
  | ok b =>
    rw [hS] at h
    cases hG : d.getShape with
    | error e0 => rw [hG] at h; cases h
    | ok shape => exact ⟨_, rfl⟩

theorem extractPartsLoop_clean_stop :
    ∀ (pre : List Label) (i : Nat),
      (∀ l ∈ pre, labelRaises l = none) →
      ∀ (bad : Label) (post : List Label) (e : String),
        labelRaises bad = some e →
        (extractPartsLoop (pre ++ bad :: post) i).1.length = pre.length ∧
        (extractPartsLoop (pre ++ bad :: post) i).2.1 = pre.length ∧
        (extractPartsLoop (pre ++ bad :: post) i).2.2 = some e := by
  intro pre
  induction pre with
  | nil =>
    intro i _ bad post e hbad
    have hb := processPart_error_char bad i e hbad
    simp [extractPartsLoop, hb]
  | cons l pre ih =>
    intro i hclean bad post e hbad
    obtain ⟨pd, hpd⟩ := processPart_ok_char l i (hclean l (by simp))
    have ihh := ih (i + 1) (fun x hx => hclean x (by simp [hx])) bad post e hbad
    simp only [List.cons_append, extractPartsLoop, hpd]
    rcases hr : extractPartsLoop (pre ++ bad :: post) (i + 1) with ⟨ps, n, err⟩
    rw [hr] at ihh
    simp only at ihh
    simp [ihh.1, ihh.2.1, ihh.2.2]

/-- C3 (amended): a per-part exception in the flat lister is caught at the
run level, not per part: the failing part is skipped (neither counted nor
emitted), the parts already processed are kept, the message is recorded as
`extraction_error` — and the remaining root shapes after the failing one are
NOT processed (the output size equals the number of parts before the
failure, whatever follows it). -/
theorem part_failure_stops_run :
    ∀ (pre : List Label) (bad : Label) (post : List Label) (e : String),
      (∀ l ∈ pre, labelRaises l = none) → labelRaises bad = some e →
      (extractAllParts (.ok (pre ++ bad :: post))).parts_list.length
          = pre.length ∧
      (extractAllParts (.ok (pre ++ bad :: post))).total_parts = pre.length ∧
      (extractAllParts (.ok (pre ++ bad :: post))).extraction_error
          = some e := by
  intro pre bad post e hclean hbad
  have h := extractPartsLoop_clean_stop pre 1 hclean bad post e hbad
  simp only [extractAllParts]
  rcases hr : extractPartsLoop (pre ++ bad :: post) 1 with ⟨ps, n, err⟩
  rw [hr] at h
  simpa using h

/-- C3 counterexample: with three root shapes where the second raises, the
exception stops the whole loop: only one record (the first part) is emitted,
so the third, healthy shape was NOT processed, contradicting the claim that
remaining root shapes are still processed. -/
theorem part_failure_aborts_remaining_cex :
    labelRaises flatBad = some "boom" ∧
    (extractAllParts (.ok [flatGoodA, flatBad, flatGoodB])).parts_list.length
        = 1 ∧
    (extractAllParts (.ok [flatGoodA, flatBad, flatGoodB])).total_parts = 1 ∧
    (extractAllParts (.ok [flatGoodA, flatBad, flatGoodB])).extraction_error
        = some "boom" := ⟨rfl, rfl, rfl, rfl⟩

theorem part_failure_stops_run_witness :
    (extractAllParts (.ok [flatGoodA, flatBad])).parts_list.length = 1 ∧
    (extractAllParts (.ok [flatGoodA, flatBad])).total_parts = 1 ∧
    (extractAllParts (.ok [flatGoodA, flatBad])).extraction_error
        = some "boom" := by
  have h := part_failure_stops_run [flatGoodA] flatBad [] "boom"
    (by intro l hl; simp at hl; subst hl; rfl) rfl
  simpa using h

/-! ### C1: metric isolation inside the shape analyzer -/

theorem runTopology_all_ok :
    ∀ (s : Shape), (∀ t, ∃ n, s.topoCount t = .ok n) →
      ∀ l : List (TopoKind × String), (runTopology s l).2 = none := by
  intro s h l
  induction l with
  | nil => rfl
  | cons p rest ih =>
    rcases p with ⟨k, key⟩
    obtain ⟨n, hn⟩ := h k
    simp only [runTopology, hn]
    rcases hr : runTopology s rest with ⟨acc, err⟩
    rw [hr] at ih
    simpa using ih

theorem analyze_success_shape :
    ∀ (s : Shape), s.isNull = false →
      (s.hasShapeType = true → ∃ k, s.shapeTypeVal = .ok k) →
      (∀ t, ∃ n, s.topoCount t = .ok n) →
      (analyzeShapeComprehensive s).topology =
          (runTopology s topologyTypes).1 ∧
      (analyzeShapeComprehensive s).geometry_properties = computeGeometry s ∧
      (analyzeShapeComprehensive s).bounding_info = computeBounding s ∧
      (analyzeShapeComprehensive s).analysis_error = none ∧
      (analyzeShapeComprehensive s).is_valid = true := by
  intro s hnull hst htopo
  have htl := runTopology_all_ok s htopo topologyTypes
  rcases hr : runTopology s topologyTypes with ⟨topo, err⟩
  rw [hr] at htl
  simp only at htl
  subst htl
  cases hT : s.hasShapeType with
  | false => simp [analyzeShapeComprehensive, hnull, hT, hr]
  | true =>
    obtain ⟨k, hk⟩ := hst hT
    simp [analyzeShapeComprehensive, hnull, hT, hk, hr, Except.map]

/-- C1 (amended): geometry properties and bounding info each enjoy
independent failure isolation — whenever the earlier steps (shape-type tag,
topology enumeration) succeed on a non-null shape, each of the two metrics
is reported purely from its own kernel calls (value or
`calculation_failed`), so a failure of one cannot suppress the other, and
the analyzer reports no top-level error.  A failure in the shape-type tag or
the topology enumeration, however, aborts all later metrics (see the
counterexample); the analyzer still always returns a complete record and
never raises. -/
theorem analyze_geometry_bounding_isolated :
    ∀ (s : Shape), s.isNull = false →
      (s.hasShapeType = true → ∃ k, s.shapeTypeVal = .ok k) →
      (∀ t, ∃ n, s.topoCount t = .ok n) →
      (analyzeShapeComprehensive s).geometry_properties = computeGeometry s ∧
      (analyzeShapeComprehensive s).bounding_info = computeBounding s ∧
      (analyzeShapeComprehensive s).analysis_error = none ∧
      (analyzeShapeComprehensive s).is_valid = true := by
  intro s hnull hst htopo
  have h := analyze_success_shape s hnull hst htopo
  exact ⟨h.2.1, h.2.2.1, h.2.2.2.1, h.2.2.2.2⟩

/-- C1 counterexample: on a non-null shape a failure in one metric (the
topology enumeration) DOES prevent the other metrics from being attempted:
although the volume and bounding-box kernel calls would succeed, both
`geometry_properties` and `bounding_info` stay empty and only the top-level
`analysis_error` is set. -/
theorem topology_failure_suppresses_geometry_cex :
    topoFailShape.isNull = false ∧
    topoFailShape.volumeProps = .ok (5, (0, 0, 0)) ∧
    topoFailShape.bbox = .ok (some (0, 0, 0, 1, 1, 1)) ∧
    (analyzeShapeComprehensive topoFailShape).geometry_properties = .empty ∧
    (analyzeShapeComprehensive topoFailShape).bounding_info = .empty ∧
    (analyzeShapeComprehensive topoFailShape).analysis_error =
      some "topology enumeration failed" := ⟨rfl, rfl, rfl, rfl, rfl, rfl⟩

theorem analyze_geometry_bounding_isolated_witness :
    (analyzeShapeComprehensive geomFailShape).geometry_properties =
      .calculationFailed "volume failed" ∧
    (analyzeShapeComprehensive geomFailShape).bounding_info =
      .ok (0, 0, 0) (2, 2, 2) (2 - 0, 2 - 0, 2 - 0)
        ((0 + 2) / 2, (0 + 2) / 2, (0 + 2) / 2) ∧
    (analyzeShapeComprehensive geomFailShape).analysis_error = none := by
  have h := analyze_geometry_bounding_isolated geomFailShape rfl
    (fun _ => ⟨2, rfl⟩) (fun t => ⟨3, rfl⟩)
  exact ⟨h.1.trans rfl, h.2.1.trans rfl, h.2.2.1⟩

/-! ### C7: serialized key names of walker nodes -/

/-- C7 counterexample: a node actually emitted by the walker stores its
assembly-vs-part classification under the serialized key `"type"`; the key
`"node_type"` required by the claim does not occur among its keys. -/
theorem node_keys_type_not_node_type_cex :
    (processAssemblyNode plainLeaf 0).map
        (fun nd => ((nodeKeys nd).contains "node_type",
          (nodeKeys nd).contains "type", nd.type)) =
      .ok (false, true, "part") := rfl

/-- C7 (amended): every node the walker emits serializes exactly the keys
`label_id, level, name, type, shape_info, color_info, attributes, children`
(plus `processing_error` after a caught per-node failure): all §3 field
names verbatim except that the classification key is `type`, not
`node_type`, its value always `assembly` or `part`. -/
theorem node_keys_amended :
    ∀ (l : Label) (lvl : Nat) (nd : NodeData),
      processAssemblyNode l lvl = .ok nd →
      nodeKeys nd = ["label_id", "level", "name", "type", "shape_info",
          "color_info", "attributes", "children"] ++
        (match nd.processing_error with
         | some _ => ["processing_error"]
         | none => []) ∧
      ((nodeKeys nd).contains "node_type") = false ∧
      (nd.type = "assembly" ∨ nd.type = "part") := by
  intro l lvl nd h
  refine ⟨rfl, ?_, ?_⟩
  · cases hpe : nd.processing_error <;> simp [nodeKeys, hpe]
  · rcases l with ⟨d, cs⟩
    cases hS : d.isSimple with
    | error e => simp [processAssemblyNode, hS] at h
    | ok b =>
      obtain ⟨si, ci, ats, ch, pe, heq, _⟩ :=
        processAssemblyNode_classified d cs lvl b hS
      rw [heq] at h
      cases h
      cases b with
      | false => exact Or.inl rfl
      | true => exact Or.inr rfl

theorem node_keys_amended_witness :
    nodeKeys plainLeafNode = ["label_id", "level", "name", "type",
      "shape_info", "color_info", "attributes", "children"] ∧
    ((nodeKeys plainLeafNode).contains "node_type") = false ∧
    (plainLeafNode.type = "assembly" ∨ plainLeafNode.type = "part") := by
  have h := node_keys_amended plainLeaf 0 plainLeafNode rfl
  exact ⟨h.1.trans rfl, h.2.1, h.2.2⟩

/-! ### C8: hex channel computation -/

theorem pyInt_nonneg_eq_floor : ∀ q : ℚ, 0 ≤ q → pyInt q = ⌊q⌋ := by
  intro q h
  rw [pyInt, if_neg (not_lt.mpr h)]

theorem py02xInt_nonneg : ∀ i : Int, 0 ≤ i → py02xInt i = py02x i.toNat := by
  intro i h
  rw [py02xInt, if_neg (not_lt.mpr h)]

theorem pyInt_channel_bounds :
    ∀ c : ℚ, 0 ≤ c → c ≤ 1 →
      0 ≤ pyInt (c * 255) ∧ (pyInt (c * 255)).toNat ≤ 255 := by
  intro c h0 h1
  have hq0 : (0 : ℚ) ≤ c * 255 := by positivity
  have hq1 : c * 255 ≤ 255 := by nlinarith
  rw [pyInt_nonneg_eq_floor _ hq0]
  have hfl : (⌊c * 255⌋ : Int) ≤ 255 := by
    have h2 := Int.floor_le_floor hq1
    have h3 : (⌊(255 : ℚ)⌋ : Int) = 255 := by norm_num
    omega
  have hge : (0 : Int) ≤ ⌊c * 255⌋ := Int.floor_nonneg.mpr hq0
  exact ⟨hge, by omega⟩

set_option maxRecDepth 10000 in
theorem py02x_decode :
    ∀ n : Nat, n ≤ 255 → twoLowerHexB (py02x n) n = true := by decide

/-- C8 (amended): for a successfully resolved color with components in
`[0,1]`, the hex field is `"#"` followed by three channels, each computed as
`int(component*255)` — plain truncation toward zero, with no prior
`round()` (see the counterexample at component `1/2`) — rendered as exactly
2 lowercase hexadecimal digits, zero-padded, that decode back to the
truncated channel value. -/
theorem hex_channels_truncated :
    ∀ (d : LabelData) (r g b : ℚ),
      d.colorGet = .ok (some (r, g, b)) →
      0 ≤ r → r ≤ 1 → 0 ≤ g → g ≤ 1 → 0 ≤ b → b ≤ 1 →
      extractLabelColor d = .colored (r, g, b) (hexOfRgb r g b) ∧
      hexOfRgb r g b = "#" ++ py02x (pyInt (r * 255)).toNat ++
        py02x (pyInt (g * 255)).toNat ++ py02x (pyInt (b * 255)).toNat ∧
      twoLowerHexB (py02x (pyInt (r * 255)).toNat)
        (pyInt (r * 255)).toNat = true ∧
      twoLowerHexB (py02x (pyInt (g * 255)).toNat)
        (pyInt (g * 255)).toNat = true ∧
      twoLowerHexB (py02x (pyInt (b * 255)).toNat)
        (pyInt (b * 255)).toNat = true := by
  intro d r g b hres hr0 hr1 hg0 hg1 hb0 hb1
  obtain ⟨hrn, hrb⟩ := pyInt_channel_bounds r hr0 hr1
  obtain ⟨hgn, hgb⟩ := pyInt_channel_bounds g hg0 hg1
  obtain ⟨hbn, hbb⟩ := pyInt_channel_bounds b hb0 hb1
  refine ⟨by simp [extractLabelColor, hres], ?_,
    py02x_decode _ hrb, py02x_decode _ hgb, py02x_decode _ hbb⟩
  rw [hexOfRgb, py02xInt_nonneg _ hrn, py02xInt_nonneg _ hgn,
    py02xInt_nonneg _ hbn]

/-- C8 counterexample: at component `1/2` the code truncates
`int(0.5*255) = 127` giving `"#7f00ff"`, while the claimed formula
`round(component*255)` gives `128`, i.e. `"#8000ff"`. -/
theorem hex_truncation_not_rounding_cex :
    extractLabelColor halfRedData = .colored (1/2, 0, 1) "#7f00ff" ∧
    specHexOfRgb (1/2) 0 1 = "#8000ff" ∧
    ("#7f00ff" : String) ≠ "#8000ff" := by
  have h255 : ((1 : ℚ)/2) * 255 = 255/2 := by norm_num
  have h0m : ((0 : ℚ)) * 255 = 0 := by norm_num
  have h1m : ((1 : ℚ)) * 255 = 255 := by norm_num
  have hint : pyInt (255/2) = 127 := by
    rw [pyInt, if_neg (by norm_num)]
    norm_num
  have hint0 : pyInt (0 : ℚ) = 0 := by
    rw [pyInt, if_neg (by norm_num)]
    norm_num
  have hint1 : pyInt (255 : ℚ) = 255 := by
    rw [pyInt, if_neg (by norm_num)]
    norm_num
  refine ⟨?_, ?_, by decide⟩
  · show ColorInfo.colored (1/2, 0, 1) (hexOfRgb (1/2) 0 1) =
      .colored (1/2, 0, 1) "#7f00ff"
    rw [hexOfRgb, h255, h0m, h1m, hint, hint0, hint1]
    rfl
  · have hround : pyRound (255/2) = 128 := by
      have hf : (⌊(255/2 : ℚ)⌋ : Int) = 127 := by norm_num
      simp only [pyRound, hf]
      rw [if_neg (by norm_num), if_neg (by norm_num), if_neg (by norm_num)]
      decide
    have hround0 : pyRound (0 : ℚ) = 0 := by
      have hf : (⌊(0 : ℚ)⌋ : Int) = 0 := by norm_num
      simp only [pyRound, hf]
      rw [if_pos (by norm_num)]
    have hround1 : pyRound (255 : ℚ) = 255 := by
      have hf : (⌊(255 : ℚ)⌋ : Int) = 255 := by norm_num
      simp only [pyRound, hf]
      rw [if_pos (by norm_num)]
    rw [specHexOfRgb, h255, h0m, h1m, hround, hround0, hround1]
    rfl

theorem hex_channels_truncated_witness :
    extractLabelColor fullMagentaData =
      .colored (1, 0, 1) (hexOfRgb 1 0 1) ∧
    hexOfRgb 1 0 1 = "#" ++ py02x (pyInt ((1 : ℚ) * 255)).toNat ++
      py02x (pyInt ((0 : ℚ) * 255)).toNat ++
      py02x (pyInt ((1 : ℚ) * 255)).toNat ∧
    twoLowerHexB (py02x (pyInt ((1 : ℚ) * 255)).toNat)
      (pyInt ((1 : ℚ) * 255)).toNat = true ∧
    twoLowerHexB (py02x (pyInt ((0 : ℚ) * 255)).toNat)
      (pyInt ((0 : ℚ) * 255)).toNat = true ∧
    twoLowerHexB (py02x (pyInt ((1 : ℚ) * 255)).toNat)
      (pyInt ((1 : ℚ) * 255)).toNat = true :=
  hex_channels_truncated fullMagentaData 1 0 1 rfl zero_le_one (le_refl 1)
    (le_refl 0) zero_le_one zero_le_one (le_refl 1)

/-! ### C9: solids clamping in flat vs nested views -/

/-- C9 (amended): only the FreeCAD-based BOM lister clamps the solids count
to a minimum of 1 in its flat topology summary (an absent or zero kernel
count is reported as 1); the assembly extractor reports the raw kernel
count unclamped — in the nested `AssemblyNode` view as shown here, and even
in its own flat `parts_list` (see the counterexample, where a flat part
record carries `solids = 0`). -/
theorem bom_solids_clamped_nested_unclamped :
    ∀ (t : FcShapeData) (s : Shape) (vals : TopoKind → Nat),
      1 ≤ (bomPartTopology t).solids ∧
      ((fcTopology t).2.2.2 = 0 → (bomPartTopology t).solids = 1) ∧
      (s.isNull = false →
        (s.hasShapeType = true → ∃ k, s.shapeTypeVal = .ok k) →
        (∀ tk, s.topoCount tk = .ok (vals tk)) →
        List.lookup "solids" (analyzeShapeComprehensive s).topology =
          some (vals .solid)) := by
  intro t s vals
  refine ⟨?_, ?_, ?_⟩
  · simp only [bomPartTopology]
    exact Nat.le_max_right _ 1
  · intro hz
    simp only [bomPartTopology, hz]
    rfl
  · intro hnull hst hvals
    have h := analyze_success_shape s hnull hst (fun tk => ⟨vals tk, hvals tk⟩)
    rw [h.1]
    have hrt : runTopology s topologyTypes =
        ([("vertices", vals .vertex), ("edges", vals .edge),
          ("faces", vals .face), ("solids", vals .solid),
          ("shells", vals .shell), ("wires", vals .wire),
          ("compounds", vals .compound)], none) := by
      simp [runTopology, topologyTypes, hvals]
    rw [hrt]
    rfl

/-- C9 counterexample: a flat `PartRecord` produced by the assembly
extractor's flat lister reports `solids = 0` — the solids count of flat
records is NOT universally clamped to a minimum of 1. -/
theorem flat_parts_solids_unclamped_cex :
    (extractAllParts (.ok [zeroSolidLabel])).parts_list.map
        (fun pd => match pd.shape_analysis with
          | .analysis a => List.lookup "solids" a.topology
          | .nullShape => none) = [some 0] ∧
    (extractAllParts (.ok [zeroSolidLabel])).total_parts = 1 := ⟨rfl, rfl⟩

theorem bom_solids_clamped_nested_unclamped_witness :
    1 ≤ (bomPartTopology wFcZero).solids ∧
    (bomPartTopology wFcZero).solids = 1 ∧
    List.lookup "solids" (analyzeShapeComprehensive wNestedShape).topology =
      some (wVals .solid) := by
  have h := bom_solids_clamped_nested_unclamped wFcZero wNestedShape wVals
  exact ⟨h.1, h.2.1 rfl, h.2.2 rfl (fun _ => ⟨2, rfl⟩) (fun tk => rfl)⟩
